import Mathlib

/-!
Verification development for the SableAI single-asset backtesting engine.

The definitions below are a shallow embedding of the Python source
`src/tsa_enhanced_strategy.py` (the TSA indicator loop, the position state
machine, and the results reduction) and of
`src/bta_integration.py._calculate_profit_factor`.  Machine floats are
modelled by `ℚ`; the IEEE NaN values produced by pandas' unfilled
`rolling(200)` windows are modelled by `Option ℚ` (`none` = NaN), with
Python's `min`/`max` NaN behaviour reproduced by `pyMin1`/`pyMaxOne`.
-/

namespace SableAI

attribute [local semireducible] Rat.add Rat.mul Rat.sub Rat.inv Rat.ofScientific

/-- Addition on NaN-propagating values (Python float `+`). -/
def oadd : Option ℚ → Option ℚ → Option ℚ
  | some a, some b => some (a + b)
  | _, _ => none

/-- Multiplication on NaN-propagating values (Python float `*`). -/
def omul : Option ℚ → Option ℚ → Option ℚ
  | some a, some b => some (a * b)
  | _, _ => none

/-- Division on NaN-propagating values.  A zero divisor yields `none`:
in the source the only zero divisors arising in the indicator loop are the
`0/0` and NaN cases, which are float NaN. -/
def odiv : Option ℚ → Option ℚ → Option ℚ
  | some a, some b => if b = 0 then none else some (a / b)
  | _, _ => none

/-- Python `min(1, x)` on a possibly-NaN `x`: CPython keeps the first
argument when the comparison with NaN is false, so `min(1, nan) = 1`. -/
def pyMin1 : Option ℚ → ℚ
  | none => 1
  | some v => min 1 v

/-- Python `max(x, 1)` on a possibly-NaN `x`: CPython keeps the first
argument when the comparison with NaN is false, so `max(nan, 1) = nan`. -/
def pyMaxOne : Option ℚ → Option ℚ
  | none => none
  | some v => some (max v 1)

/-- One OHLCV bar (`data` row of the source, raw columns only). -/
structure Bar where
  open_ : ℚ
  high : ℚ
  low : ℚ
  close : ℚ
  volume : ℚ
deriving DecidableEq

instance : Inhabited Bar := ⟨⟨0, 0, 0, 0, 0⟩⟩

/-- The strategy parameters consumed by `_calculate_tsa_indicators`. -/
structure TSAParams where
  maxLength : ℚ
  accelMultiplier : ℚ
  collen : ℕ
deriving DecidableEq

/-- Left fold of `max` with a strict accumulator (`if a ≤ x then x else a`
is definitionally `max a x`). -/
def foldMax : ℚ → List ℚ → ℚ
  | a, [] => a
  | a, x :: xs => if a ≤ x then foldMax x xs else foldMax a xs

/-- Left fold of `min` with a strict accumulator. -/
def foldMin : ℚ → List ℚ → ℚ
  | a, [] => a
  | a, x :: xs => if x ≤ a then foldMin x xs else foldMin a xs

/-- Maximum of a list of rationals, `0` for the empty list
(the windows the source takes maxima of are always nonempty). -/
def listMax : List ℚ → ℚ
  | [] => 0
  | x :: xs => foldMax x xs

/-- Minimum of a list of rationals, `0` for the empty list. -/
def listMin : List ℚ → ℚ
  | [] => 0
  | x :: xs => foldMin x xs

/-- Maximum absolute value over a list (`np.abs(x).max()` over a window). -/
def absMax (l : List ℚ) : ℚ := listMax (l.map (fun x => |x|))

/-- `counts_diff.rolling(200).apply(lambda x: abs(x).max())` read at the
newest position: `recents` lists the closes seen so far, newest first
(current bar first).  `none` (NaN) while fewer than 200 closes exist. -/
def rollMaxAbs (recents : List ℚ) : Option ℚ :=
  if recents.length < 200 then none else some (absMax (recents.take 200))

/-- Weighted average of a list with weights `1, 2, ..., len`
(`np.average(values, weights=range(1, len+1))`). -/
def weightedAvg (l : List ℚ) : ℚ :=
  ((l.enum.map (fun p => p.2 * ((p.1 : ℚ) + 1))).sum) /
    (((List.range l.length).map (fun k => ((k : ℚ) + 1))).sum)

/-- `_calculate_hma(value, period, i)`: the source reads the
`trend_speed` column at indices `i-period+1 .. i`; the slot at `i` is
still the initialisation value `0.0` when the read happens.  `tsSeen`
lists the trend-speed column values already written, newest first. -/
def hmaCalc (tsSeen : List ℚ) (value : ℚ) (period : ℕ) (i : ℕ) : ℚ :=
  if i < period - 1 then value
  else
    let values := (tsSeen.take (period - 1)).reverse ++ [0]
    if values.length < period then value
    else
      let wmaHalf := weightedAvg (values.drop (values.length - period / 2))
      let wmaFull := weightedAvg values
      2 * wmaHalf - wmaFull

/-- The mutable loop state of `_calculate_tsa_indicators`, together with
the data the loop re-reads from the DataFrame: `closesSeen` (closes of
bars processed so far, newest first) and `tsSeen` (the `trend_speed`
column values written so far, newest first). -/
structure TSAState where
  closesSeen : List ℚ
  tsSeen : List ℚ
  prevCountsDiff : ℚ
  dynEmaPrev : ℚ
  speed : ℚ
  pos : ℤ
  x1 : ℕ
  y1 : ℚ
deriving DecidableEq

/-- Loop-variable values before the first iteration. -/
def tsaInit : TSAState :=
  { closesSeen := [], tsSeen := [], prevCountsDiff := 0, dynEmaPrev := 0,
    speed := 0, pos := 0, x1 := 0, y1 := 0 }

/-- The per-bar indicator values written by `_calculate_tsa_indicators`. -/
structure TSAOut where
  dynEma : ℚ
  trendSpeed : ℚ
  normalizedSpeed : ℚ
deriving DecidableEq

instance : Inhabited TSAOut := ⟨⟨0, 0, 0⟩⟩

/-- The acceleration-factor computation of the loop body (lines 131-135
of the source): `delta_counts_diff / max(rolling_200_max_abs, 1)` with
Python NaN semantics, where `delta_counts_diff = |close_i - prev_counts_diff|`. -/
def accelOf (s : TSAState) (c : ℚ) : Option ℚ :=
  odiv (some |c - s.prevCountsDiff|) (pyMaxOne (rollMaxAbs (c :: s.closesSeen)))

/-- One iteration of the `for i in range(len(self.data))` loop of
`_calculate_tsa_indicators`, producing the next state and the values
written into the `dyn_ema`, `trend_speed` and `normalized_speed` columns
at the current index.  The current index is the number of bars already
processed. -/
def tsaStep (p : TSAParams) (s : TSAState) (b : Bar) : TSAState × TSAOut :=
  let i := s.closesSeen.length
  if i = 0 then
    ({ s with closesSeen := [b.close], tsSeen := [0], dynEmaPrev := b.close,
              x1 := 0, y1 := b.open_ },
     ⟨b.close, 0, 0⟩)
  else
    let c := b.close
    let M := rollMaxAbs (c :: s.closesSeen)
    let accelFactor := accelOf s c
    let countsDiffNorm := odiv (oadd (some c) M) (omul (some 2) M)
    let dynLength := oadd (some 5) (omul countsDiffNorm (some (p.maxLength - 5)))
    let alphaBase := odiv (some 2) (oadd dynLength (some 1))
    let alpha := pyMin1 (omul alphaBase
      (oadd (some 1) (omul accelFactor (some p.accelMultiplier))))
    let dynEma := alpha * c + (1 - alpha) * s.dynEmaPrev
    let prevClose := s.closesSeen.headI
    let upd :=
      if c > dynEma ∧ prevClose ≤ dynEma then ((c - b.open_ : ℚ), (1 : ℤ), i, c)
      else if c < dynEma ∧ prevClose ≥ dynEma then ((c - b.open_ : ℚ), (-1 : ℤ), i, c)
      else (s.speed, s.pos, s.x1, s.y1)
    let speed2 := upd.1 + (c - b.open_)
    let trendSpeed := hmaCalc s.tsSeen speed2 5 i
    let tsSeen' := trendSpeed :: s.tsSeen
    let normalizedSpeed :=
      if p.collen ≤ i then
        let w := tsSeen'.take p.collen
        let minSpeed := listMin w
        let maxSpeed := listMax w
        if maxSpeed ≠ minSpeed then (trendSpeed - minSpeed) / (maxSpeed - minSpeed)
        else 1/2
      else 1/2
    ({ closesSeen := c :: s.closesSeen, tsSeen := tsSeen', prevCountsDiff := c,
       dynEmaPrev := dynEma, speed := speed2, pos := upd.2.1, x1 := upd.2.2.1,
       y1 := upd.2.2.2 },
     ⟨dynEma, trendSpeed, normalizedSpeed⟩)

/-- A left-to-right scan producing one output per input; the generic
shape of every per-bar indicator computation in the source. -/
def mapScan (f : σ → ι → σ × α) : σ → List ι → List α
  | _, [] => []
  | s, x :: xs => (f s x).2 :: mapScan f (f s x).1 xs

/-- The state after scanning a list. -/
def scanSt (f : σ → ι → σ × α) : σ → List ι → σ
  | s, [] => s
  | s, x :: xs => scanSt f (f s x).1 xs

/-- The per-bar `dyn_ema` / `trend_speed` / `normalized_speed` columns
computed by `_calculate_tsa_indicators` on a bar series. -/
def tsaCompute (p : TSAParams) (bars : List Bar) : List TSAOut :=
  mapScan (tsaStep p) tsaInit bars

/-- The loop state of `_calculate_tsa_indicators` after processing the
first `n` bars of the series. -/
def tsaStateAt (p : TSAParams) (bars : List Bar) (n : ℕ) : TSAState :=
  scanSt (tsaStep p) tsaInit (bars.take n)

/-- The TSA loop state reached after processing `k` flat bars at price
100 (closed form used to evaluate the loop on the concrete example
series; established step by step below). -/
def flatState (k : ℕ) : TSAState :=
  { closesSeen := List.replicate k 100, tsSeen := List.replicate k 0,
    prevCountsDiff := if k ≤ 1 then 0 else 100,
    dynEmaPrev := if k = 0 then 0 else 100, speed := 0, pos := 0, x1 := 0,
    y1 := if k = 0 then 0 else 100 }

/-- Modelled from the spec: `compute_ema(bars, period)` — the source
obtains `ema_fast`/`ema_slow` from the external talib library, which is
not part of this repository; the spec calls it "conventional; undefined
before `period` samples are available".  State: samples seen so far, the
running seed sum, and the previous EMA value. -/
def emaStep (n : ℕ) (s : ℕ × ℚ × Option ℚ) (c : ℚ) : (ℕ × ℚ × Option ℚ) × Option ℚ :=
  let cnt := s.1 + 1
  if cnt < n then ((cnt, s.2.1 + c, none), none)
  else if cnt = n then
    let seed := (s.2.1 + c) / (n : ℚ)
    ((cnt, 0, some seed), some seed)
  else
    match s.2.2 with
    | some prev =>
        let e := (2 / ((n : ℚ) + 1)) * c + (1 - 2 / ((n : ℚ) + 1)) * prev
        ((cnt, 0, some e), some e)
    | none => ((cnt, 0, none), none)

/-- Per-bar EMA column over a close series (`none` = warm-up NaN). -/
def emaCompute (n : ℕ) (closes : List ℚ) : List (Option ℚ) :=
  mapScan (emaStep n) (0, 0, none) closes

/-- True range of a bar given the previous close. -/
def trOf (b : Bar) (pc : ℚ) : ℚ :=
  max (b.high - b.low) (max |b.high - pc| |b.low - pc|)

/-- State of the rolling average-true-range computation. -/
structure AtrState where
  count : ℕ
  prevClose : Option ℚ
  trAcc : ℚ
  prevAtr : Option ℚ
deriving DecidableEq

/-- Modelled from the spec: `compute_atr(bars, period)` — the source
obtains `atr` from the external talib library (Wilder smoothing of true
range); the spec calls it "standard average-true-range; undefined
(NaN/None) for indices `< period`". -/
def atrStep (n : ℕ) (s : AtrState) (b : Bar) : AtrState × Option ℚ :=
  match s.prevClose with
  | none => ({ count := 1, prevClose := some b.close, trAcc := 0, prevAtr := none }, none)
  | some pc =>
    let tr := trOf b pc
    let i := s.count
    if i < n then
      ({ s with count := i + 1, prevClose := some b.close, trAcc := s.trAcc + tr }, none)
    else if i = n then
      let a := (s.trAcc + tr) / (n : ℚ)
      ({ s with count := i + 1, prevClose := some b.close, prevAtr := some a }, some a)
    else
      match s.prevAtr with
      | some pa =>
          let a := (pa * ((n : ℚ) - 1) + tr) / (n : ℚ)
          ({ s with count := i + 1, prevClose := some b.close, prevAtr := some a }, some a)
      | none => ({ s with count := i + 1, prevClose := some b.close }, none)

/-- Per-bar ATR column over a bar series (`none` = warm-up NaN). -/
def atrCompute (n : ℕ) (bars : List Bar) : List (Option ℚ) :=
  mapScan (atrStep n) ⟨0, none, 0, none⟩ bars

/-- State of the directional-movement computation. -/
structure AdxState where
  count : ℕ
  prevHLC : Option (ℚ × ℚ × ℚ)
  smTR : ℚ
  smPDM : ℚ
  smMDM : ℚ
  dxAcc : ℚ
  prevAdx : Option ℚ
deriving DecidableEq

/-- Modelled from the spec: `compute_adx_dmi(bars, period)` — the source
obtains `adx`/`plus_di`/`minus_di` from the external talib library; the
spec calls it "directional movement index and its two directional
components; undefined for indices `< period`".  Standard Wilder
smoothing; output is `(plus_di, minus_di, adx)`. -/
def adxStep (n : ℕ) (s : AdxState) (b : Bar) :
    AdxState × (Option ℚ × Option ℚ × Option ℚ) :=
  match s.prevHLC with
  | none =>
      ({ s with count := 1, prevHLC := some (b.high, b.low, b.close) },
       (none, none, none))
  | some (ph, pl, pc) =>
    let i := s.count
    let upMove := b.high - ph
    let downMove := pl - b.low
    let pdm := if upMove > downMove ∧ 0 < upMove then upMove else 0
    let mdm := if downMove > upMove ∧ 0 < downMove then downMove else 0
    let tr := trOf b pc
    if i < n then
      ({ s with count := i + 1, prevHLC := some (b.high, b.low, b.close),
                smTR := s.smTR + tr, smPDM := s.smPDM + pdm, smMDM := s.smMDM + mdm },
       (none, none, none))
    else
      let smTR' := if i = n then s.smTR + tr else s.smTR - s.smTR / (n : ℚ) + tr
      let smPDM' := if i = n then s.smPDM + pdm else s.smPDM - s.smPDM / (n : ℚ) + pdm
      let smMDM' := if i = n then s.smMDM + mdm else s.smMDM - s.smMDM / (n : ℚ) + mdm
      let pdi := if smTR' = 0 then none else some (100 * smPDM' / smTR')
      let mdi := if smTR' = 0 then none else some (100 * smMDM' / smTR')
      let dx : Option ℚ :=
        match pdi, mdi with
        | some a, some m => if a + m = 0 then none else some (100 * |a - m| / (a + m))
        | _, _ => none
      let dxAcc' := s.dxAcc + dx.getD 0
      let adxOut : Option ℚ :=
        if i + 1 < 2 * n then none
        else if i + 1 = 2 * n then some (dxAcc' / (n : ℚ))
        else
          match s.prevAdx with
          | some pa => some ((pa * ((n : ℚ) - 1) + dx.getD 0) / (n : ℚ))
          | none => none
      ({ s with count := i + 1, prevHLC := some (b.high, b.low, b.close),
                smTR := smTR', smPDM := smPDM', smMDM := smMDM',
                dxAcc := dxAcc', prevAdx := adxOut.orElse (fun _ => s.prevAdx) },
       (pdi, mdi, adxOut))

/-- Per-bar `(plus_di, minus_di, adx)` columns over a bar series. -/
def adxCompute (n : ℕ) (bars : List Bar) : List (Option ℚ × Option ℚ × Option ℚ) :=
  mapScan (adxStep n) ⟨0, none, 0, 0, 0, 0, none⟩ bars

/-- Direction of a position ("long"/"short" strings of the source). -/
inductive Dir where
  | long : Dir
  | short : Dir
deriving DecidableEq

/-- One row of the strategy DataFrame as read by the position state
machine: the raw OHLC columns, the timestamp index, and the indicator
columns filled in by `_calculate_indicators`. -/
structure Row where
  open_ : ℚ
  high : ℚ
  low : ℚ
  close : ℚ
  time : ℚ
  atr : ℚ
  adx : ℚ
  plusDi : ℚ
  minusDi : ℚ
  emaFast : ℚ
  emaSlow : ℚ
  dynEma : ℚ
  trendSpeed : ℚ
  normalizedSpeed : ℚ
deriving DecidableEq

instance : Inhabited Row := ⟨⟨0, 0, 0, 0, 0, 0, 0, 0, 0, 0, 0, 0, 0, 0⟩⟩

/-- The strategy parameters consumed by the position state machine. -/
structure BTParams where
  atrMultiplier : ℚ
  riskReward : ℚ
  adxThreshold : ℚ
deriving DecidableEq

/-- A record appended to `self.trades` by `_exit_position`. -/
structure TradeRec where
  entryBar : ℤ
  exitBar : ℕ
  entryPrice : ℚ
  exitPrice : ℚ
  positionSize : ℤ
  pnl : ℚ
  stopLoss : ℚ
  takeProfit : ℚ
  entryDate : ℚ
  exitDate : ℚ
deriving DecidableEq

instance : Inhabited TradeRec := ⟨⟨0, 0, 0, 0, 0, 0, 0, 0, 0, 0⟩⟩

/-- The mutable position/accounting state of `TSAEnhancedStrategy`. -/
structure BTState where
  positionSize : ℤ
  entryPrice : ℚ
  stopLoss : ℚ
  takeProfit : ℚ
  inPosition : Bool
  tradeCount : ℕ
  winCount : ℕ
  lossCount : ℕ
  totalPnl : ℚ
  trades : List TradeRec
deriving DecidableEq

/-- `_initialize_variables`: the state at the start of a backtest. -/
def btInit : BTState :=
  { positionSize := 0, entryPrice := 0, stopLoss := 0, takeProfit := 0,
    inPosition := false, tradeCount := 0, winCount := 0, lossCount := 0,
    totalPnl := 0, trades := [] }

/-- `tsa_green` of `_check_entry_conditions`. -/
def tsaGreen (r : Row) : Prop := r.trendSpeed > 0 ∧ r.normalizedSpeed > 1/2

/-- `tsa_red` of `_check_entry_conditions`. -/
def tsaRed (r : Row) : Prop := r.trendSpeed < 0 ∧ r.normalizedSpeed > 1/2

/-- `tsa_consolidation` of `_check_entry_conditions`. -/
def tsaConsolidation (r : Row) : Prop :=
  |r.trendSpeed| < 1/10 ∨ r.normalizedSpeed < 3/10

/-- `adx_long_filter`: ADX bullish, strong, and EMA bullish. -/
def adxLongFilter (p : BTParams) (r : Row) : Prop :=
  r.plusDi > r.minusDi ∧ r.adx > p.adxThreshold ∧ r.emaFast > r.emaSlow

/-- `adx_short_filter`: ADX bearish, strong, and EMA bearish. -/
def adxShortFilter (p : BTParams) (r : Row) : Prop :=
  r.minusDi > r.plusDi ∧ r.adx > p.adxThreshold ∧ r.emaSlow > r.emaFast

/-- `atr_long_confirmation`: `close > close - atr * atr_multiplier`. -/
def atrLongConf (p : BTParams) (r : Row) : Prop :=
  r.close > r.close - r.atr * p.atrMultiplier

/-- `atr_short_confirmation`: `close < close + atr * atr_multiplier`. -/
def atrShortConf (p : BTParams) (r : Row) : Prop :=
  r.close < r.close + r.atr * p.atrMultiplier

/-- `long_condition` of `_check_entry_conditions`. -/
def longCondition (p : BTParams) (r : Row) : Prop :=
  r.close > r.dynEma ∧ tsaGreen r ∧ adxLongFilter p r ∧ atrLongConf p r
    ∧ ¬ tsaConsolidation r

/-- `short_condition` of `_check_entry_conditions`. -/
def shortCondition (p : BTParams) (r : Row) : Prop :=
  r.close < r.dynEma ∧ tsaRed r ∧ adxShortFilter p r ∧ atrShortConf p r
    ∧ ¬ tsaConsolidation r

instance (r : Row) : Decidable (tsaGreen r) := by unfold tsaGreen; infer_instance

instance (r : Row) : Decidable (tsaRed r) := by unfold tsaRed; infer_instance

instance (r : Row) : Decidable (tsaConsolidation r) := by
  unfold tsaConsolidation; infer_instance

instance (p : BTParams) (r : Row) : Decidable (adxLongFilter p r) := by
  unfold adxLongFilter; infer_instance

instance (p : BTParams) (r : Row) : Decidable (adxShortFilter p r) := by
  unfold adxShortFilter; infer_instance

instance (p : BTParams) (r : Row) : Decidable (atrLongConf p r) := by
  unfold atrLongConf; infer_instance

instance (p : BTParams) (r : Row) : Decidable (atrShortConf p r) := by
  unfold atrShortConf; infer_instance

instance (p : BTParams) (r : Row) : Decidable (longCondition p r) := by
  unfold longCondition; infer_instance

instance (p : BTParams) (r : Row) : Decidable (shortCondition p r) := by
  unfold shortCondition; infer_instance

/-- `_check_entry_conditions(i)`: `none` models `(False, "")`, and
`some d` models `(True, direction)`. -/
def checkEntryConditions (p : BTParams) (inPos : Bool) (i : ℕ) (r : Row) : Option Dir :=
  if i < 200 then none
  else if longCondition p r ∧ inPos = false then some Dir.long
  else if shortCondition p r ∧ inPos = false then some Dir.short
  else none

/-- `_check_exit_conditions(i)`. -/
def checkExitConditions (s : BTState) (r : Row) : Prop :=
  s.inPosition = true ∧
    (if 0 < s.positionSize then r.low ≤ s.stopLoss ∨ r.high ≥ s.takeProfit
     else r.high ≥ s.stopLoss ∨ r.low ≤ s.takeProfit)

instance (s : BTState) (r : Row) : Decidable (checkExitConditions s r) := by
  unfold checkExitConditions
  infer_instance

/-- `_enter_position(i, direction)`. -/
def enterPosition (p : BTParams) (s : BTState) (r : Row) (d : Dir) : BTState :=
  let entry := r.close
  let sl := match d with
    | Dir.long => entry - r.atr * p.atrMultiplier
    | Dir.short => entry + r.atr * p.atrMultiplier
  let tp := match d with
    | Dir.long => entry + (entry - sl) * p.riskReward
    | Dir.short => entry - (sl - entry) * p.riskReward
  { s with entryPrice := entry,
           positionSize := match d with | Dir.long => 1 | Dir.short => -1,
           inPosition := true, stopLoss := sl, takeProfit := tp,
           tradeCount := s.tradeCount + 1 }

/-- `_exit_position(i)`; `len` is `len(self.data)` (used by the
`entry_bar` expression `i - len(self.data) + len(self.data)`). -/
def exitPosition (s : BTState) (i : ℕ) (r : Row) (len : ℕ) : BTState :=
  if s.inPosition = false then s
  else
    let exitPrice := r.close
    let pnl := if 0 < s.positionSize then (exitPrice - s.entryPrice) / s.entryPrice
               else (s.entryPrice - exitPrice) / s.entryPrice
    let tr : TradeRec :=
      { entryBar := (i : ℤ) - (len : ℤ) + (len : ℤ), exitBar := i,
        entryPrice := s.entryPrice, exitPrice := exitPrice,
        positionSize := s.positionSize, pnl := pnl,
        stopLoss := s.stopLoss, takeProfit := s.takeProfit,
        entryDate := r.time, exitDate := r.time }
    { s with totalPnl := s.totalPnl + pnl,
             winCount := if pnl > 0 then s.winCount + 1 else s.winCount,
             lossCount := if pnl > 0 then s.lossCount else s.lossCount + 1,
             trades := s.trades ++ [tr],
             inPosition := false, positionSize := 0 }

/-- The exit block of the `run_backtest` loop body:
`if self.in_position and self._check_exit_conditions(i): self._exit_position(i)`. -/
def exitPhase (s : BTState) (i : ℕ) (r : Row) (len : ℕ) : BTState :=
  if s.inPosition = true ∧ checkExitConditions s r then exitPosition s i r len else s

/-- The entry block of the `run_backtest` loop body:
`if not self.in_position: should_enter, direction = ...; if should_enter: ...`. -/
def entryPhase (p : BTParams) (s : BTState) (i : ℕ) (r : Row) : BTState :=
  if s.inPosition = false then
    match checkEntryConditions p s.inPosition i r with
    | some d => enterPosition p s r d
    | none => s
  else s

/-- One iteration of the `run_backtest` loop: the exit block is
evaluated first, then the entry block on the resulting state. -/
def barStep (p : BTParams) (len : ℕ) (s : BTState) (i : ℕ) (r : Row) : BTState :=
  entryPhase p (exitPhase s i r len) i r

/-- The `run_backtest` loop over the remaining rows, `i` the index of
the next row. -/
def btLoop (p : BTParams) (len : ℕ) : BTState → ℕ → List Row → BTState
  | s, _, [] => s
  | s, i, r :: rest => btLoop p len (barStep p len s i r) (i + 1) rest

/-- Every state the `run_backtest` loop passes through (before each
bar, plus the state after the last bar), starting from `s` at index `i`. -/
def btStatesAux (p : BTParams) (len : ℕ) : BTState → ℕ → List Row → List BTState
  | s, _, [] => [s]
  | s, i, r :: rest => s :: btStatesAux p len (barStep p len s i r) (i + 1) rest

/-- The state machine state after the first `n` iterations of the
`run_backtest` loop. -/
def btStateAt (p : BTParams) (rows : List Row) (n : ℕ) : BTState :=
  btLoop p rows.length btInit 0 (rows.take n)

/-- The final `run_backtest` step `if self.in_position:
self._exit_position(len(self.data) - 1)` (force close at series end). -/
def forceClose (rows : List Row) (s : BTState) : BTState :=
  if s.inPosition = true then
    match rows.getLast? with
    | some r => exitPosition s (rows.length - 1) r rows.length
    | none => s
  else s

/-- The state at the end of `run_backtest`. -/
def btFinal (p : BTParams) (rows : List Row) : BTState :=
  forceClose rows (btLoop p rows.length btInit 0 rows)

/-- Every state of a full backtest run: the loop states and the state
after the end-of-series force close. -/
def btAllStates (p : BTParams) (rows : List Row) : List BTState :=
  btStatesAux p rows.length btInit 0 rows ++ [btFinal p rows]

/-- `np.cumsum` over trade P&Ls. -/
def cumsum : List ℚ → List ℚ := mapScan (fun acc x => (acc + x, acc + x)) 0

/-- `np.maximum.accumulate`. -/
def runningMax : List ℚ → List ℚ
  | [] => []
  | x :: xs => x :: mapScan (fun m y => (max m y, max m y)) x xs

/-- `np.mean` (exact rational version). -/
def meanQ (l : List ℚ) : ℚ := l.sum / (l.length : ℚ)

/-- `np.std(l) ** 2` (population variance, `ddof=0`; exact rational). -/
def varQ (l : List ℚ) : ℚ :=
  ((l.map (fun x => (x - meanQ l) ^ 2)).sum) / (l.length : ℚ)

/-- `gross_profit = sum([t['pnl'] for t in self.trades if t['pnl'] > 0])`. -/
def grossProfitOf (trades : List TradeRec) : ℚ :=
  ((trades.filter (fun t => decide (t.pnl > 0))).map TradeRec.pnl).sum

/-- `gross_loss = abs(sum([t['pnl'] for t in self.trades if t['pnl'] < 0]))`. -/
def grossLossOf (trades : List TradeRec) : ℚ :=
  |((trades.filter (fun t => decide (t.pnl < 0))).map TradeRec.pnl).sum|

/-- The max-drawdown block of `_calculate_results`. -/
def maxDrawdownOf (pnls : List ℚ) : ℚ :=
  let cum := cumsum pnls
  let rm := runningMax cum
  let dd := List.zipWith (fun a b => a - b) cum rm
  if 0 < dd.length then |listMin dd| else 0

/-- The Sharpe block of `_calculate_results`:
`np.mean(r)/np.std(r) if np.std(r) > 0 else 0`.  `np.std r > 0` is
equivalent to `varQ r > 0`; the real square root forces `ℝ`. -/
noncomputable def sharpeOf (returns : List ℚ) : ℝ :=
  if varQ returns > 0 then (meanQ returns : ℝ) / Real.sqrt (varQ returns : ℝ) else 0

/-- The summary dictionary built by `_calculate_results`.
`profitFactor = none` encodes the Python value `float('inf')`;
`winCountOut`/`lossCountOut` are `none` when the zero-trade branch omits
those dictionary keys. -/
structure BTResults where
  totalTrades : ℕ
  winRate : ℚ
  totalReturn : ℚ
  profitFactor : Option ℚ
  maxDrawdown : ℚ
  sharpe : ℝ
  avgTrade : ℚ
  grossProfit : ℚ
  grossLoss : ℚ
  winCountOut : Option ℕ
  lossCountOut : Option ℕ

/-- `_calculate_results`, as a function of the accumulated trades and
counters. -/
noncomputable def calculateResults (trades : List TradeRec)
    (winCount lossCount : ℕ) (totalPnl : ℚ) : BTResults :=
  if trades = [] then
    ⟨0, 0, 0, some 0, 0, 0, 0, 0, 0, none, none⟩
  else
    let totalTrades := trades.length
    let winRate := if 0 < totalTrades then (winCount : ℚ) / (totalTrades : ℚ) else 0
    let returns := trades.map TradeRec.pnl
    let gp := grossProfitOf trades
    let gl := grossLossOf trades
    let pf : Option ℚ := if gl > 0 then some (gp / gl) else none
    let avgTrade := if returns = [] then 0 else meanQ returns
    ⟨totalTrades, winRate, totalPnl, pf, maxDrawdownOf returns, sharpeOf returns,
     avgTrade, gp, gl, some winCount, some lossCount⟩

/-- `bta_integration._calculate_profit_factor` gross profit: trades with
a present (`trade.pnl` truthy, i.e. not None) and positive P&L. -/
def btaGrossProfit (pnls : List (Option ℚ)) : ℚ :=
  ((pnls.filterMap id).filter (fun a => decide (a > 0))).sum

/-- `bta_integration._calculate_profit_factor` gross loss. -/
def btaGrossLoss (pnls : List (Option ℚ)) : ℚ :=
  |((pnls.filterMap id).filter (fun a => decide (a < 0))).sum|

/-- `bta_integration._calculate_profit_factor` over the trade P&L
amounts (`none` = `trade.pnl is None`). -/
def btaProfitFactor (pnls : List (Option ℚ)) : ℚ :=
  if pnls = [] then 0
  else if btaGrossLoss pnls = 0 then 99999 / 100
  else btaGrossProfit pnls / btaGrossLoss pnls

/-- Follows the claim's words (C9): `long_condition` with the ATR-band
conjunct removed ("the remaining filters"). -/
def longConditionSansAtr (p : BTParams) (r : Row) : Prop :=
  r.close > r.dynEma ∧ tsaGreen r ∧ adxLongFilter p r ∧ ¬ tsaConsolidation r

/-- Follows the claim's words (C9): `short_condition` with the ATR-band
conjunct removed. -/
def shortConditionSansAtr (p : BTParams) (r : Row) : Prop :=
  r.close < r.dynEma ∧ tsaRed r ∧ adxShortFilter p r ∧ ¬ tsaConsolidation r

instance (p : BTParams) (r : Row) : Decidable (longConditionSansAtr p r) := by
  unfold longConditionSansAtr; infer_instance

instance (p : BTParams) (r : Row) : Decidable (shortConditionSansAtr p r) := by
  unfold shortConditionSansAtr; infer_instance

/-- Follows the claim's words (C9): `_check_entry_conditions` with the
ATR-band check dropped — entry acceptance from the remaining filters. -/
def checkEntrySansAtr (p : BTParams) (inPos : Bool) (i : ℕ) (r : Row) : Option Dir :=
  if i < 200 then none
  else if longConditionSansAtr p r ∧ inPos = false then some Dir.long
  else if shortConditionSansAtr p r ∧ inPos = false then some Dir.short
  else none

/-- Follows the claim's words (C4): the absolute change of the close
from the previous bar, divided by the 200-bar rolling maximum of that
same per-bar absolute change, with the divisor floored at 1. -/
def accelFactorClaim (closes : List ℚ) (i : ℕ) : Option ℚ :=
  if i < 1 then none
  else
    let deltas := (List.range i).map (fun j => |closes.getD (j + 1) 0 - closes.getD j 0|)
    odiv (some |closes.getD i 0 - closes.getD (i - 1) 0|)
      (pyMaxOne (rollMaxAbs deltas.reverse))

/-- The source defaults `max_length=50, accel_multiplier=5.0, collen=100`. -/
def tsaDefaults : TSAParams := ⟨50, 5, 100⟩

/-- The source defaults `atr_multiplier=3.0, risk_reward_ratio=1.5,
adx_threshold=25`. -/
def btDefaults : BTParams := ⟨3, 3/2, 25⟩

/-- A flat bar at price 100. -/
def bar100 : Bar := ⟨100, 100, 100, 100, 0⟩

/-- A bar opening at 100 and closing at 110. -/
def barUp : Bar := ⟨100, 110, 100, 110, 0⟩

/-- A flat bar at price 101. -/
def bar101 : Bar := ⟨101, 101, 101, 101, 0⟩

/-- 199 flat bars at 100 followed by one bar opening 100 / closing 110:
bar 199 is a bullish crossover under both the source's and the claim's
reading of the crossover condition. -/
def c3bars : List Bar := List.replicate 199 bar100 ++ [barUp]

/-- 200 flat bars at 100 followed by one flat bar at 101: at bar 200 the
per-bar absolute close change is 1 while the 200-bar rolling maximum of
the absolute close is 101. -/
def c4bars : List Bar := List.replicate 200 bar100 ++ [bar101]

/-- An all-zero indicator row (bars 0..199 of the backtest example; no
entry can fire there because of the `i < 200` warm-up guard). -/
def zeroRow : Row := default

/-- Bar 200 of the backtest example: every entry filter passes
(close 100 above `dyn_ema` 90, `trend_speed` 1, `normalized_speed` 0.6,
`plus_di` 2 > `minus_di` 1, `adx` 30 > 25, `ema_fast` 2 > `ema_slow` 1,
`atr` 1). -/
def entryRow : Row :=
  { open_ := 100, high := 100, low := 100, close := 100, time := 200,
    atr := 1, adx := 30, plusDi := 2, minusDi := 1, emaFast := 2, emaSlow := 1,
    dynEma := 90, trendSpeed := 1, normalizedSpeed := 6/10 }

/-- Bar 201 of the backtest example: the high 106 reaches the open
long's take-profit 104.5, and every entry filter passes again at the
close 106. -/
def exitRow : Row :=
  { open_ := 100, high := 106, low := 100, close := 106, time := 201,
    atr := 1, adx := 30, plusDi := 2, minusDi := 1, emaFast := 2, emaSlow := 1,
    dynEma := 90, trendSpeed := 1, normalizedSpeed := 6/10 }

/-- A 202-bar run in which a long entered at bar 200 is stopped out at
bar 201 and a new long is entered on that same bar 201. -/
def exampleRows : List Row := List.replicate 200 zeroRow ++ [entryRow, exitRow]

/-- A concrete mid-series TSA loop state (one bar at price 100 seen)
used to instantiate the step theorems. -/
def tsaStateOneBar : TSAState :=
  { closesSeen := [100], tsSeen := [0], prevCountsDiff := 0, dynEmaPrev := 100,
    speed := 0, pos := 0, x1 := 0, y1 := 100 }

/-- A two-bar series used to instantiate the amended C7 theorem. -/
def twoBars : List Bar := [bar100, bar101]

/-- A closed trade with realized P&L `+1` (gross profit 1, gross loss 0). -/
def tradeWin : TradeRec :=
  { entryBar := 0, exitBar := 0, entryPrice := 0, exitPrice := 0,
    positionSize := 1, pnl := 1, stopLoss := 0, takeProfit := 0,
    entryDate := 0, exitDate := 0 }

/-- The C5 invariant: the `in_position` flag and the sign of
`position_size` agree. -/
def posInv (s : BTState) : Prop :=
  (s.inPosition = true ↔ (s.positionSize = 1 ∨ s.positionSize = -1))
  ∧ (s.inPosition = false ↔ s.positionSize = 0)

/-- The C10 invariant: the win and loss counters count exactly the
recorded trades with strictly positive (respectively non-positive)
realized P&L. -/
def countInv (s : BTState) : Prop :=
  s.winCount = (s.trades.filter (fun t => decide (0 < t.pnl))).length
  ∧ s.lossCount = (s.trades.filter (fun t => ! decide (0 < t.pnl))).length
  ∧ s.winCount + s.lossCount = s.trades.length

/-- A concrete in-position state (long from 100, stop 97, target 104.5)
used to instantiate the step theorems of the backtest loop. -/
def btStateLong : BTState :=
  { positionSize := 1, entryPrice := 100, stopLoss := 97, takeProfit := 209/2,
    inPosition := true, tradeCount := 1, winCount := 0, lossCount := 0,
    totalPnl := 0, trades := [] }

section Theorems

theorem mapScan_append (f : σ → ι → σ × α) (s : σ) (l l' : List ι) :
    mapScan f s (l ++ l') = mapScan f s l ++ mapScan f (scanSt f s l) l' := by
  induction l generalizing s with
  | nil => simp [mapScan, scanSt]
  | cons x xs ih => simp [mapScan, scanSt, ih]

theorem length_mapScan (f : σ → ι → σ × α) (s : σ) (l : List ι) :
    (mapScan f s l).length = l.length := by
  induction l generalizing s with
  | nil => rfl
  | cons x xs ih => simp [mapScan, ih]

/-- Truncating the input of a `mapScan` after the inspected index does
not change the output at that index. -/
theorem mapScan_take_getElem? (f : σ → ι → σ × α) (s : σ) (l : List ι) (i : ℕ) :
    (mapScan f s (l.take (i + 1)))[i]? = (mapScan f s l)[i]? := by
  rcases le_or_lt l.length (i + 1) with h | h
  · rw [List.take_of_length_le h]
  · conv_rhs => rw [← List.take_append_drop (i + 1) l, mapScan_append]
    rw [List.getElem?_append]
    have hlen : i < (mapScan f s (l.take (i + 1))).length := by
      rw [length_mapScan, List.length_take]
      omega
    simp [hlen]

theorem scanSt_append (f : σ → ι → σ × α) (s : σ) (l l' : List ι) :
    scanSt f s (l ++ l') = scanSt f (scanSt f s l) l' := by
  induction l generalizing s with
  | nil => simp [scanSt]
  | cons x xs ih => simp [scanSt, ih]

/-- The output written for the bar appended at the end of the input. -/
theorem mapScan_concat_getD (f : σ → ι → σ × α) (s : σ) (l : List ι) (b : ι)
    (d : α) :
    (mapScan f s (l ++ [b])).getD l.length d = (f (scanSt f s l) b).2 := by
  rw [mapScan_append]
  have h : (mapScan f s l).length = l.length := length_mapScan f s l
  rw [List.getD, List.get?_append_right (by omega)]
  simp [h, mapScan]

theorem le_foldMax (l : List ℚ) : ∀ a : ℚ, a ≤ foldMax a l := by
  induction l with
  | nil => intro a; exact le_refl a
  | cons y ys ih =>
      intro a
      unfold foldMax
      split_ifs with h
      · exact le_trans h (ih y)
      · exact ih a

theorem foldMin_le (l : List ℚ) : ∀ a : ℚ, foldMin a l ≤ a := by
  induction l with
  | nil => intro a; exact le_refl a
  | cons y ys ih =>
      intro a
      unfold foldMin
      split_ifs with h
      · exact le_trans (ih y) h
      · exact ih a

theorem listMin_le_head (x : ℚ) (xs : List ℚ) : listMin (x :: xs) ≤ x :=
  foldMin_le xs x

theorem head_le_listMax (x : ℚ) (xs : List ℚ) : x ≤ listMax (x :: xs) :=
  le_foldMax xs x

/-- State-tracking invariant of the TSA loop: after processing the bars
of `l`, the recorded close history is the reversed close column, the
recorded trend-speed history is the reversed `trend_speed` column, and
`prev_counts_diff` holds the close of the last processed bar (it is
never updated by the skipped first iteration). -/
theorem tsaRun_state (p : TSAParams) (l : List Bar) :
    (scanSt (tsaStep p) tsaInit l).closesSeen = (l.map Bar.close).reverse
    ∧ (scanSt (tsaStep p) tsaInit l).tsSeen
        = ((mapScan (tsaStep p) tsaInit l).map TSAOut.trendSpeed).reverse
    ∧ (scanSt (tsaStep p) tsaInit l).prevCountsDiff
        = (if l.length ≤ 1 then 0 else (l.map Bar.close).getD (l.length - 1) 0) := by
  induction l using List.reverseRecOn with
  | nil => refine ⟨rfl, rfl, rfl⟩
  | append_singleton l b ih =>
      obtain ⟨ih1, ih2, ih3⟩ := ih
      rw [scanSt_append, mapScan_append]
      set s := scanSt (tsaStep p) tsaInit l with hs
      have hlen : s.closesSeen.length = l.length := by
        rw [ih1]; simp
      rcases Nat.eq_zero_or_pos l.length with h0 | hpos
      · have hl : l = [] := List.length_eq_zero.mp h0
        subst hl
        simp only [hs] at *
        refine ⟨?_, ?_, ?_⟩ <;>
          simp [scanSt, mapScan, tsaStep, tsaInit]
      · have hne : s.closesSeen.length ≠ 0 := by omega
        constructor
        · simp only [scanSt, tsaStep, if_neg hne]
          simp [ih1]
        constructor
        · simp only [scanSt, mapScan, tsaStep, if_neg hne]
          simp [ih2, scanSt]
        · simp only [scanSt, tsaStep, if_neg hne]
          simp only [List.map_append, List.length_append]
          have : ¬ (l.length + 1 ≤ 1) := by omega
          rw [if_neg (by simpa using this)]
          simp

/-- C1: no lookahead.  For every bar index `i`, each per-bar indicator
value — the TSA columns `dyn_ema`, `trend_speed`, `normalized_speed`,
and the conventional indicators (EMA, ATR, ADX/DMI, at any period) —
computed on the series truncated to the first `i+1` bars equals the
value at index `i` computed on the full series; no indicator value at
bar `i` depends on any bar with index greater than `i`. -/
theorem c1_indicators_no_lookahead (p : TSAParams) (nE nA nX : ℕ)
    (bars : List Bar) (i : ℕ) :
    (tsaCompute p (bars.take (i + 1)))[i]? = (tsaCompute p bars)[i]?
    ∧ (emaCompute nE ((bars.map Bar.close).take (i + 1)))[i]?
        = (emaCompute nE (bars.map Bar.close))[i]?
    ∧ (atrCompute nA (bars.take (i + 1)))[i]? = (atrCompute nA bars)[i]?
    ∧ (adxCompute nX (bars.take (i + 1)))[i]? = (adxCompute nX bars)[i]? :=
  ⟨mapScan_take_getElem? _ _ bars i,
   mapScan_take_getElem? _ _ (bars.map Bar.close) i,
   mapScan_take_getElem? _ _ bars i,
   mapScan_take_getElem? _ _ bars i⟩

set_option maxRecDepth 100000 in
theorem scan_flat_40 :
    scanSt (tsaStep tsaDefaults) tsaInit (List.replicate 40 bar100) = flatState 40 := by
  decide

set_option maxRecDepth 100000 in
theorem scan_flat_80 :
    scanSt (tsaStep tsaDefaults) (flatState 40) (List.replicate 40 bar100) = flatState 80 := by
  decide

set_option maxRecDepth 100000 in
theorem scan_flat_120 :
    scanSt (tsaStep tsaDefaults) (flatState 80) (List.replicate 40 bar100) = flatState 120 := by
  decide

set_option maxRecDepth 100000 in
theorem scan_flat_160 :
    scanSt (tsaStep tsaDefaults) (flatState 120) (List.replicate 40 bar100) = flatState 160 := by
  decide

set_option maxRecDepth 100000 in
theorem scan_flat_199 :
    scanSt (tsaStep tsaDefaults) (flatState 160) (List.replicate 39 bar100) = flatState 199 := by
  decide

set_option maxRecDepth 100000 in
theorem scan_flat_200 :
    scanSt (tsaStep tsaDefaults) (flatState 199) (List.replicate 1 bar100) = flatState 200 := by
  decide

/-- The TSA loop state after the 199 flat bars of the example series. -/
theorem scan_flat_full_199 :
    scanSt (tsaStep tsaDefaults) tsaInit (List.replicate 199 bar100) = flatState 199 := by
  have h : (199 : ℕ) = 40 + (40 + (40 + (40 + 39))) := rfl
  rw [h, List.replicate_add, scanSt_append, scan_flat_40,
      List.replicate_add, scanSt_append, scan_flat_80,
      List.replicate_add, scanSt_append, scan_flat_120,
      List.replicate_add, scanSt_append, scan_flat_160, scan_flat_199]

/-- The TSA loop state after 200 flat bars. -/
theorem scan_flat_full_200 :
    scanSt (tsaStep tsaDefaults) tsaInit (List.replicate 200 bar100) = flatState 200 := by
  have h : (200 : ℕ) = 199 + 1 := rfl
  rw [h, List.replicate_add, scanSt_append, scan_flat_full_199, scan_flat_200]

set_option maxRecDepth 100000 in
theorem scan_flat_198 :
    scanSt (tsaStep tsaDefaults) (flatState 160) (List.replicate 38 bar100) = flatState 198 := by
  decide

/-- The TSA loop state after 198 flat bars. -/
theorem scan_flat_full_198 :
    scanSt (tsaStep tsaDefaults) tsaInit (List.replicate 198 bar100) = flatState 198 := by
  have h : (198 : ℕ) = 40 + (40 + (40 + (40 + 38))) := rfl
  rw [h, List.replicate_add, scanSt_append, scan_flat_40,
      List.replicate_add, scanSt_append, scan_flat_80,
      List.replicate_add, scanSt_append, scan_flat_120,
      List.replicate_add, scanSt_append, scan_flat_160, scan_flat_198]

set_option maxRecDepth 100000 in
theorem step199_speed : (tsaStep tsaDefaults (flatState 199) barUp).1.speed = 20 := by
  decide

set_option maxRecDepth 100000 in
theorem step199_dynEma :
    (tsaStep tsaDefaults (flatState 199) barUp).2.dynEma = 56420/561 := by
  decide

set_option maxRecDepth 100000 in
theorem step198_dynEma :
    (tsaStep tsaDefaults (flatState 198) bar100).2.dynEma = 100 := by
  decide

/-- `take n` of an append whose first part has length `n`. -/
theorem take_append_len (l₁ l₂ : List ι) (n : ℕ) (h : l₁.length = n) :
    (l₁ ++ l₂).take n = l₁ := by
  subst h
  exact List.take_left l₁ l₂

/-- `mapScan_concat_getD` with the index given as a separate numeral. -/
theorem mapScan_concat_getD_idx (f : σ → ι → σ × α) (s : σ) (l : List ι)
    (b : ι) (d : α) (n : ℕ) (h : l.length = n) :
    (mapScan f s (l ++ [b])).getD n d = (f (scanSt f s l) b).2 := by
  subst h
  exact mapScan_concat_getD f s l b d

set_option maxRecDepth 100000 in
/-- The TSA loop state of the C3 example after all 200 bars. -/
theorem c3_state_200 :
    tsaStateAt tsaDefaults c3bars 200 = (tsaStep tsaDefaults (flatState 199) barUp).1 := by
  unfold tsaStateAt c3bars
  rw [List.take_of_length_le (by decide)]
  rw [scanSt_append, scan_flat_full_199]
  rfl

set_option maxRecDepth 100000 in
/-- The `dyn_ema`/`trend_speed`/`normalized_speed` values written at bar
199 of the C3 example. -/
theorem c3_out_199 :
    (tsaCompute tsaDefaults c3bars).getD 199 default
      = (tsaStep tsaDefaults (flatState 199) barUp).2 := by
  unfold tsaCompute c3bars
  rw [mapScan_concat_getD_idx _ _ _ _ _ 199 (by decide), scan_flat_full_199]

set_option maxRecDepth 100000 in
/-- The values written at bar 198 of the C3 example. -/
theorem c3_out_198 :
    (tsaCompute tsaDefaults c3bars).getD 198 default
      = (tsaStep tsaDefaults (flatState 198) bar100).2 := by
  have h2 : (tsaCompute tsaDefaults (c3bars.take 199))[198]?
      = (tsaCompute tsaDefaults c3bars)[198]? :=
    mapScan_take_getElem? _ _ c3bars 198
  have h3 : c3bars.take 199 = List.replicate 198 bar100 ++ [bar100] := by
    unfold c3bars
    rw [take_append_len _ _ _ (by decide)]
    decide
  rw [List.getD, List.get?_eq_getElem?, ← h2, h3]
  rw [← List.get?_eq_getElem?, ← List.getD]
  rw [tsaCompute, mapScan_concat_getD_idx _ _ _ _ _ 198 (by decide), scan_flat_full_198]

set_option maxRecDepth 100000 in
/-- C3, counterexample: in the 200-bar example series, bar 199 is a
bullish crossover even under the claim's reading of the condition
(`close[199] > dyn_ema[199]` and `close[198] ≤ dyn_ema[198]`), yet the
speed accumulator after the bar-199 update is `20 = 2*(close-open)`,
not `close[199] - open[199] = 10`: the code adds `close - open` again
after the crossover reset. -/
theorem c3_counterexample :
    (c3bars.getD 199 default).close
        > ((tsaCompute tsaDefaults c3bars).getD 199 default).dynEma
    ∧ (c3bars.getD 198 default).close
        ≤ ((tsaCompute tsaDefaults c3bars).getD 198 default).dynEma
    ∧ (tsaStateAt tsaDefaults c3bars 200).speed = 20
    ∧ (c3bars.getD 199 default).close - (c3bars.getD 199 default).open_ = 10
    ∧ (20 : ℚ) ≠ 10 := by
  have hb9 : c3bars.getD 199 default = barUp := by decide
  have hb8 : c3bars.getD 198 default = bar100 := by decide
  refine ⟨?_, ?_, ?_, ?_, by norm_num⟩
  · rw [hb9, c3_out_199, step199_dynEma]
    show (110 : ℚ) > 56420/561
    norm_num
  · rw [hb8, c3_out_198, step198_dynEma]
    show (100 : ℚ) ≤ 100
    exact le_refl _
  · rw [c3_state_200, step199_speed]
  · rw [hb9]
    show (110 : ℚ) - 100 = 10
    norm_num

/-- C3, amended: at every bar `i ≥ 1`, the code's bullish reset branch
fires exactly when `close[i] > dyn_ema[i]` and `close[i-1] ≤ dyn_ema[i]`
(both comparisons against the *current* `dyn_ema`, not `dyn_ema[i-1]`);
on such a bar the speed accumulator equals `2*(close[i]-open[i])` after
the update, because the unconditional `speed += close-open` runs after
the crossover reset; the bearish branch is mirrored; and on every
non-crossover bar the accumulator increases by exactly
`close[i]-open[i]`.  `(tsaStep p s b).1.dynEmaPrev` is `dyn_ema[i]` and
`pc` is `close[i-1]`. -/
theorem c3_amended (p : TSAParams) (s : TSAState) (b : Bar) (pc : ℚ)
    (rest : List ℚ) (h : s.closesSeen = pc :: rest) :
    ((b.close > (tsaStep p s b).1.dynEmaPrev ∧ pc ≤ (tsaStep p s b).1.dynEmaPrev) →
        (tsaStep p s b).1.speed = 2 * (b.close - b.open_)
        ∧ (tsaStep p s b).1.pos = 1)
    ∧ ((b.close < (tsaStep p s b).1.dynEmaPrev ∧ pc ≥ (tsaStep p s b).1.dynEmaPrev) →
        (tsaStep p s b).1.speed = 2 * (b.close - b.open_)
        ∧ (tsaStep p s b).1.pos = -1)
    ∧ ((¬(b.close > (tsaStep p s b).1.dynEmaPrev ∧ pc ≤ (tsaStep p s b).1.dynEmaPrev)
        ∧ ¬(b.close < (tsaStep p s b).1.dynEmaPrev ∧ pc ≥ (tsaStep p s b).1.dynEmaPrev)) →
        (tsaStep p s b).1.speed = s.speed + (b.close - b.open_)
        ∧ (tsaStep p s b).1.pos = s.pos) := by
  rcases s with ⟨cs, tsS, pcd, de, sp, po, xv, yv⟩
  replace h : cs = pc :: rest := h
  subst h
  have hne : ¬((pc :: rest).length = 0) := by simp
  simp only [tsaStep]
  rw [if_neg hne]
  dsimp only [List.headI]
  split_ifs with h1 h2
  · refine ⟨fun _ => ⟨by ring, rfl⟩, ?_, ?_⟩
    · intro hc
      exact absurd hc.1 (lt_asymm h1.1)
    · intro hc
      exact absurd h1 hc.1
  · refine ⟨?_, fun _ => ⟨by ring, rfl⟩, ?_⟩
    · intro hc
      exact absurd hc.1 (lt_asymm h2.1)
    · intro hc
      exact absurd h2 hc.2
  · exact ⟨fun hc => absurd hc h1, fun hc => absurd hc h2, fun _ => ⟨rfl, rfl⟩⟩

theorem c3_amended_witness :
    tsaStateOneBar.closesSeen = 100 :: []
    ∧ (((barUp.close > (tsaStep tsaDefaults tsaStateOneBar barUp).1.dynEmaPrev
          ∧ (100 : ℚ) ≤ (tsaStep tsaDefaults tsaStateOneBar barUp).1.dynEmaPrev) →
        (tsaStep tsaDefaults tsaStateOneBar barUp).1.speed
            = 2 * (barUp.close - barUp.open_)
        ∧ (tsaStep tsaDefaults tsaStateOneBar barUp).1.pos = 1)
    ∧ ((barUp.close < (tsaStep tsaDefaults tsaStateOneBar barUp).1.dynEmaPrev
          ∧ (100 : ℚ) ≥ (tsaStep tsaDefaults tsaStateOneBar barUp).1.dynEmaPrev) →
        (tsaStep tsaDefaults tsaStateOneBar barUp).1.speed
            = 2 * (barUp.close - barUp.open_)
        ∧ (tsaStep tsaDefaults tsaStateOneBar barUp).1.pos = -1)
    ∧ ((¬(barUp.close > (tsaStep tsaDefaults tsaStateOneBar barUp).1.dynEmaPrev
          ∧ (100 : ℚ) ≤ (tsaStep tsaDefaults tsaStateOneBar barUp).1.dynEmaPrev)
        ∧ ¬(barUp.close < (tsaStep tsaDefaults tsaStateOneBar barUp).1.dynEmaPrev
          ∧ (100 : ℚ) ≥ (tsaStep tsaDefaults tsaStateOneBar barUp).1.dynEmaPrev)) →
        (tsaStep tsaDefaults tsaStateOneBar barUp).1.speed
            = tsaStateOneBar.speed + (barUp.close - barUp.open_)
        ∧ (tsaStep tsaDefaults tsaStateOneBar barUp).1.pos = tsaStateOneBar.pos)) :=
  ⟨rfl, c3_amended tsaDefaults tsaStateOneBar barUp 100 [] rfl⟩

/-- C4, amended: for every bar `i ≥ 1`, the acceleration factor used to
scale the adaptive EMA's smoothing coefficient equals the absolute
change of the close from the previous counts value — `close[i-1]` for
`i ≥ 2` but `0` at `i = 1`, because the skipped first loop iteration
never updates `prev_counts_diff` — divided by the 200-bar rolling
maximum of the absolute *close price itself* (not of the per-bar
absolute change), with the divisor floored at 1; it is NaN (`none`)
while that rolling window is not yet full. -/
theorem c4_amended (p : TSAParams) (bars : List Bar) (i : ℕ)
    (h1 : 1 ≤ i) (h2 : i < bars.length) :
    (tsaStateAt p bars i).prevCountsDiff
        = (if i = 1 then 0 else (bars.getD (i - 1) default).close)
    ∧ ∀ M, rollMaxAbs ((bars.getD i default).close :: (tsaStateAt p bars i).closesSeen)
          = some M →
        accelOf (tsaStateAt p bars i) ((bars.getD i default).close)
          = some (|(bars.getD i default).close
              - (if i = 1 then 0 else (bars.getD (i - 1) default).close)| / max M 1) := by
  have hlen : (bars.take i).length = i := by
    rw [List.length_take]
    omega
  have hst := (tsaRun_state p (bars.take i)).2.2
  rw [hlen] at hst
  have hmain : (tsaStateAt p bars i).prevCountsDiff
      = (if i = 1 then 0 else (bars.getD (i - 1) default).close) := by
    unfold tsaStateAt
    rw [hst]
    rcases Nat.lt_or_ge i 2 with hlt | hge
    · have hi1 : i = 1 := by omega
      subst hi1
      simp
    · have hne1 : ¬ i ≤ 1 := by omega
      have hne1' : ¬ i = 1 := by omega
      rw [if_neg hne1, if_neg hne1']
      have hidx : i - 1 < bars.length := by omega
      rw [List.getD, List.get?_eq_getElem?, List.getElem?_map,
          List.getElem?_take, if_pos (by omega : i - 1 < i), List.getElem?_eq_getElem hidx]
      rw [List.getD, List.get?_eq_getElem?, List.getElem?_eq_getElem hidx]
      rfl
  refine ⟨hmain, ?_⟩
  intro M hM
  unfold accelOf
  rw [hM]
  simp only [pyMaxOne]
  have hpos : (0 : ℚ) < max M 1 := lt_of_lt_of_le one_pos (le_max_right M 1)
  simp only [odiv, if_neg (ne_of_gt hpos)]
  rw [hmain]

theorem c4_amended_witness :
    ((1 : ℕ) ≤ 2 ∧ 2 < ([bar100, bar100, bar101] : List Bar).length)
    ∧ ((tsaStateAt tsaDefaults [bar100, bar100, bar101] 2).prevCountsDiff
        = (if 2 = 1 then 0 else (([bar100, bar100, bar101] : List Bar).getD (2 - 1) default).close)
    ∧ ∀ M, rollMaxAbs ((([bar100, bar100, bar101] : List Bar).getD 2 default).close
            :: (tsaStateAt tsaDefaults [bar100, bar100, bar101] 2).closesSeen) = some M →
        accelOf (tsaStateAt tsaDefaults [bar100, bar100, bar101] 2)
            ((([bar100, bar100, bar101] : List Bar).getD 2 default).close)
          = some (|(([bar100, bar100, bar101] : List Bar).getD 2 default).close
              - (if 2 = 1 then 0
                 else (([bar100, bar100, bar101] : List Bar).getD (2 - 1) default).close)|
              / max M 1)) :=
  ⟨⟨by decide, by decide⟩,
   c4_amended tsaDefaults [bar100, bar100, bar101] 2 (by decide) (by decide)⟩

set_option maxRecDepth 100000 in
/-- The TSA loop state of the C4 example after its 200 flat bars. -/
theorem c4_state_200 : tsaStateAt tsaDefaults c4bars 200 = flatState 200 := by
  unfold tsaStateAt c4bars
  rw [take_append_len _ _ _ (by decide), scan_flat_full_200]

set_option maxRecDepth 100000 in
/-- C4, counterexample: on 200 flat bars at close 100 followed by one
bar at close 101, the acceleration factor computed by the code at bar
200 is `1/101` — the divisor is the rolling maximum of `|close|`
(= 101) — while the claim's formula (divide by the rolling maximum of
the per-bar absolute close change, = 1) yields `1`. -/
theorem c4_counterexample :
    accelOf (tsaStateAt tsaDefaults c4bars 200) ((c4bars.getD 200 default).close)
        = some (1/101)
    ∧ accelFactorClaim (c4bars.map Bar.close) 200 = some 1
    ∧ some ((1 : ℚ)/101) ≠ some (1 : ℚ) := by
  rw [c4_state_200]
  have hc : (c4bars.getD 200 default).close = 101 := by decide
  rw [hc]
  refine ⟨by decide, ?_, by decide⟩
  have hmap : c4bars.map Bar.close = List.replicate 200 100 ++ [101] := by decide
  rw [hmap]
  decide

theorem getD_eq_getElem?_getD (l : List α) (n : ℕ) (d : α) :
    l.getD n d = (l[n]?).getD d := by
  rw [List.getD, List.get?_eq_getElem?]

theorem mapScan_take (f : σ → ι → σ × α) (s : σ) (l : List ι) (n : ℕ) :
    mapScan f s (l.take n) = (mapScan f s l).take n := by
  rcases le_or_lt l.length n with h | h
  · rw [List.take_of_length_le h,
        List.take_of_length_le (by rw [length_mapScan]; exact h)]
  · conv_rhs => rw [← List.take_append_drop n l, mapScan_append]
    rw [take_append_len _ _ _ (by rw [length_mapScan, List.length_take]; omega)]

/-- For a bar with index `≥ 1`, the `normalized_speed` written by the
loop body, expressed through the trailing window of `trend_speed`
column values (current value included). -/
theorem tsaStep_normalized (p : TSAParams) (s : TSAState) (b : Bar)
    (hne : s.closesSeen ≠ []) :
    (tsaStep p s b).2.normalizedSpeed
      = (if p.collen ≤ s.closesSeen.length then
           (if listMax (((tsaStep p s b).2.trendSpeed :: s.tsSeen).take p.collen)
                ≠ listMin (((tsaStep p s b).2.trendSpeed :: s.tsSeen).take p.collen)
            then ((tsaStep p s b).2.trendSpeed
                    - listMin (((tsaStep p s b).2.trendSpeed :: s.tsSeen).take p.collen))
                  / (listMax (((tsaStep p s b).2.trendSpeed :: s.tsSeen).take p.collen)
                    - listMin (((tsaStep p s b).2.trendSpeed :: s.tsSeen).take p.collen))
           else 1/2)
         else 1/2) := by
  have hne' : ¬(s.closesSeen.length = 0) := by
    simpa [List.length_eq_zero] using hne
  simp only [tsaStep]
  rw [if_neg hne']

/-- C7, amended: `normalized_speed[0]` is `0` (the column's
initialisation value — the first loop iteration skips the assignment);
for every bar `1 ≤ i < collen` it is `0.5`; and for `i ≥ collen` it is
`0.5` when the trailing `collen`-value window of `trend_speed` (bars
`i-collen+1 .. i`) has equal max and min, and otherwise equals
`(trend_speed[i] - min)/(max - min)`, which lies in `[0,1]`.  Note the
window used by the code starts only once `i ≥ collen`, so the window
never includes bar 0. -/
theorem c7_amended (p : TSAParams) (bars : List Bar) (i : ℕ)
    (h1 : 1 ≤ i) (h2 : i < bars.length) (hc : 1 ≤ p.collen) :
    ((tsaCompute p bars).getD 0 default).normalizedSpeed = 0
    ∧ (i < p.collen → ((tsaCompute p bars).getD i default).normalizedSpeed = 1/2)
    ∧ (p.collen ≤ i →
        ∀ w, w = (((tsaCompute p bars).map TSAOut.trendSpeed).take (i + 1)).reverse.take p.collen →
          (listMax w = listMin w →
              ((tsaCompute p bars).getD i default).normalizedSpeed = 1/2)
          ∧ (listMax w ≠ listMin w →
              ((tsaCompute p bars).getD i default).normalizedSpeed
                = (((tsaCompute p bars).getD i default).trendSpeed - listMin w)
                    / (listMax w - listMin w)
              ∧ 0 ≤ ((tsaCompute p bars).getD i default).normalizedSpeed
              ∧ ((tsaCompute p bars).getD i default).normalizedSpeed ≤ 1)) := by
  have hlen : (bars.take i).length = i := by
    rw [List.length_take]
    omega
  have hcs := (tsaRun_state p (bars.take i)).1
  have hts := (tsaRun_state p (bars.take i)).2.1
  have hsplit : bars.take (i + 1) = bars.take i ++ [bars.getD i default] := by
    rw [List.take_succ]
    congr 1
    rw [List.getElem?_eq_getElem h2]
    rw [getD_eq_getElem?_getD, List.getElem?_eq_getElem h2]
    rfl
  have hout : (tsaCompute p bars).getD i default
      = (tsaStep p (scanSt (tsaStep p) tsaInit (bars.take i)) (bars.getD i default)).2 := by
    have e1 : (tsaCompute p (bars.take (i + 1))).getD i default
        = (tsaCompute p bars).getD i default := by
      unfold tsaCompute
      rw [getD_eq_getElem?_getD, getD_eq_getElem?_getD, mapScan_take_getElem?]
    rw [← e1, hsplit]
    unfold tsaCompute
    rw [mapScan_concat_getD_idx _ _ _ _ _ i hlen]
  have hcslen : (scanSt (tsaStep p) tsaInit (bars.take i)).closesSeen.length = i := by
    rw [hcs]
    simp only [List.length_reverse, List.length_map, hlen]
  have hcsne : (scanSt (tsaStep p) tsaInit (bars.take i)).closesSeen ≠ [] := by
    intro hE
    rw [hE] at hcslen
    simp at hcslen
    omega
  have hnstep := tsaStep_normalized p (scanSt (tsaStep p) tsaInit (bars.take i))
      (bars.getD i default) hcsne
  rw [hcslen] at hnstep
  have hzero : ((tsaCompute p bars).getD 0 default).normalizedSpeed = 0 := by
    rcases bars with _ | ⟨b0, rest0⟩
    · simp at h2
    · rfl
  refine ⟨hzero, ?_, ?_⟩
  · intro hlt
    rw [hout, hnstep, if_neg (by omega)]
  · intro hge w hw
    have hwin : w = ((tsaStep p (scanSt (tsaStep p) tsaInit (bars.take i))
        (bars.getD i default)).2.trendSpeed
          :: (scanSt (tsaStep p) tsaInit (bars.take i)).tsSeen).take p.collen := by
      rw [hw]
      unfold tsaCompute
      congr 1
      rw [← List.map_take, ← mapScan_take, hsplit, mapScan_append]
      simp only [List.map_append, List.reverse_append]
      rw [← hts]
      simp [mapScan]
    rw [hout, hnstep, if_pos hge, ← hwin]
    obtain ⟨m, hm⟩ : ∃ m, p.collen = m + 1 := ⟨p.collen - 1, by omega⟩
    have hwcons : w = (tsaStep p (scanSt (tsaStep p) tsaInit (bars.take i))
        (bars.getD i default)).2.trendSpeed
          :: ((scanSt (tsaStep p) tsaInit (bars.take i)).tsSeen.take m) := by
      rw [hwin, hm, List.take_succ_cons]
    constructor
    · intro heq
      rw [if_neg (by simpa using heq)]
    · intro hne2
      rw [if_pos hne2]
      have hts_mem_lo : listMin w ≤ (tsaStep p (scanSt (tsaStep p) tsaInit (bars.take i))
          (bars.getD i default)).2.trendSpeed := by
        rw [hwcons]
        exact listMin_le_head _ _
      have hts_mem_hi : (tsaStep p (scanSt (tsaStep p) tsaInit (bars.take i))
          (bars.getD i default)).2.trendSpeed ≤ listMax w := by
        rw [hwcons]
        exact head_le_listMax _ _
      have hlt : listMin w < listMax w :=
        lt_of_le_of_ne (le_trans hts_mem_lo hts_mem_hi) (Ne.symm hne2)
      refine ⟨rfl, div_nonneg (by linarith) (by linarith), ?_⟩
      rw [div_le_one (by linarith)]
      linarith

set_option maxRecDepth 40000 in
theorem c7_counterexample :
    ((tsaCompute tsaDefaults [bar100]).getD 0 default).normalizedSpeed = 0
    ∧ (0 : ℕ) < tsaDefaults.collen
    ∧ ((0 : ℚ) ≠ 1/2) := by
  decide

theorem c7_amended_witness :
    ((1 : ℕ) ≤ 1 ∧ 1 < twoBars.length ∧ 1 ≤ tsaDefaults.collen)
    ∧ (((tsaCompute tsaDefaults twoBars).getD 0 default).normalizedSpeed = 0
    ∧ (1 < tsaDefaults.collen →
        ((tsaCompute tsaDefaults twoBars).getD 1 default).normalizedSpeed = 1/2)
    ∧ (tsaDefaults.collen ≤ 1 →
        ∀ w, w = (((tsaCompute tsaDefaults twoBars).map TSAOut.trendSpeed).take (1 + 1)).reverse.take tsaDefaults.collen →
          (listMax w = listMin w →
              ((tsaCompute tsaDefaults twoBars).getD 1 default).normalizedSpeed = 1/2)
          ∧ (listMax w ≠ listMin w →
              ((tsaCompute tsaDefaults twoBars).getD 1 default).normalizedSpeed
                = (((tsaCompute tsaDefaults twoBars).getD 1 default).trendSpeed - listMin w)
                    / (listMax w - listMin w)
              ∧ 0 ≤ ((tsaCompute tsaDefaults twoBars).getD 1 default).normalizedSpeed
              ∧ ((tsaCompute tsaDefaults twoBars).getD 1 default).normalizedSpeed ≤ 1))) :=
  ⟨⟨by decide, by decide, by decide⟩,
   c7_amended tsaDefaults twoBars 1 (by decide) (by decide) (by decide)⟩

theorem countInv_btInit : countInv btInit := by
  unfold countInv btInit
  decide

theorem countInv_exitPosition (s : BTState) (i : ℕ) (r : Row) (len : ℕ)
    (h : countInv s) : countInv (exitPosition s i r len) := by
  obtain ⟨hw, hl, ht⟩ := h
  unfold exitPosition
  by_cases h1 : s.inPosition = false
  · rw [if_pos h1]
    exact ⟨hw, hl, ht⟩
  · rw [if_neg h1]
    unfold countInv
    by_cases hq : 0 < s.positionSize
    · simp only [if_pos hq]
      by_cases hp : (0 : ℚ) < (r.close - s.entryPrice) / s.entryPrice
      · simp only [if_pos hp, gt_iff_lt, List.filter_append, List.length_append,
          List.filter_cons, List.filter_nil, decide_eq_true_eq, hp, if_true,
          Bool.not_true]
        simp [hw, hl, ht, hp]
        omega
      · simp only [if_neg hp, gt_iff_lt, List.filter_append, List.length_append,
          List.filter_cons, List.filter_nil, decide_eq_true_eq, hp, if_false,
          Bool.not_false]
        simp [hw, hl, ht, hp]
        omega
    · simp only [if_neg hq]
      by_cases hp : (0 : ℚ) < (s.entryPrice - r.close) / s.entryPrice
      · simp only [if_pos hp, gt_iff_lt, List.filter_append, List.length_append,
          List.filter_cons, List.filter_nil, decide_eq_true_eq, hp, if_true,
          Bool.not_true]
        simp [hw, hl, ht, hp]
        omega
      · simp only [if_neg hp, gt_iff_lt, List.filter_append, List.length_append,
          List.filter_cons, List.filter_nil, decide_eq_true_eq, hp, if_false,
          Bool.not_false]
        simp [hw, hl, ht, hp]
        omega

theorem countInv_enterPosition (p : BTParams) (s : BTState) (r : Row) (d : Dir)
    (h : countInv s) : countInv (enterPosition p s r d) := by
  obtain ⟨hw, hl, ht⟩ := h
  cases d <;> exact ⟨hw, hl, ht⟩

theorem countInv_exitPhase (s : BTState) (i : ℕ) (r : Row) (len : ℕ)
    (h : countInv s) : countInv (exitPhase s i r len) := by
  unfold exitPhase
  split_ifs with h1
  · exact countInv_exitPosition s i r len h
  · exact h

theorem countInv_entryPhase (p : BTParams) (s : BTState) (i : ℕ) (r : Row)
    (h : countInv s) : countInv (entryPhase p s i r) := by
  unfold entryPhase
  split_ifs with h1
  · rcases checkEntryConditions p s.inPosition i r with _ | d
    · exact h
    · exact countInv_enterPosition p s r d h
  · exact h

theorem countInv_barStep (p : BTParams) (len : ℕ) (s : BTState) (i : ℕ) (r : Row)
    (h : countInv s) : countInv (barStep p len s i r) :=
  countInv_entryPhase p _ i r (countInv_exitPhase s i r len h)

theorem countInv_btStatesAux (p : BTParams) (len : ℕ) (rows : List Row) :
    ∀ (s : BTState) (i : ℕ), countInv s →
      ∀ t ∈ btStatesAux p len s i rows, countInv t := by
  induction rows with
  | nil =>
      intro s i h t ht
      simp only [btStatesAux, List.mem_singleton] at ht
      exact ht ▸ h
  | cons r rest ih =>
      intro s i h t ht
      simp only [btStatesAux, List.mem_cons] at ht
      rcases ht with rfl | ht
      · exact h
      · exact ih _ _ (countInv_barStep p len s i r h) t ht

theorem countInv_btLoop (p : BTParams) (len : ℕ) (rows : List Row) :
    ∀ (s : BTState) (i : ℕ), countInv s → countInv (btLoop p len s i rows) := by
  induction rows with
  | nil => intro s i h; exact h
  | cons r rest ih => intro s i h; exact ih _ _ (countInv_barStep p len s i r h)

theorem countInv_btFinal (p : BTParams) (rows : List Row) : countInv (btFinal p rows) := by
  unfold btFinal forceClose
  have h := countInv_btLoop p rows.length rows btInit 0 countInv_btInit
  split_ifs with h1
  · rcases rows.getLast? with _ | r
    · exact h
    · exact countInv_exitPosition _ _ _ _ h
  · exact h

/-- C10: at every point of a backtest run, `win_count` counts exactly
the recorded trades with strictly positive realized P&L, `loss_count`
counts the rest — so a trade with P&L exactly `0` increments
`loss_count`, not `win_count` — and `win_count + loss_count` equals the
number of recorded trades. -/
theorem c10_win_loss_counting (p : BTParams) (rows : List Row) :
    ∀ s ∈ btAllStates p rows,
      s.winCount = (s.trades.filter (fun t => decide (0 < t.pnl))).length
      ∧ s.lossCount = (s.trades.filter (fun t => ! decide (0 < t.pnl))).length
      ∧ s.winCount + s.lossCount = s.trades.length := by
  intro s hs
  unfold btAllStates at hs
  rcases List.mem_append.mp hs with h | h
  · exact countInv_btStatesAux p rows.length rows btInit 0 countInv_btInit s h
  · simp only [List.mem_singleton] at h
    exact h ▸ countInv_btFinal p rows

theorem c10_witness :
    btInit ∈ btAllStates btDefaults []
    ∧ (btInit.winCount = (btInit.trades.filter (fun t => decide (0 < t.pnl))).length
      ∧ btInit.lossCount = (btInit.trades.filter (fun t => ! decide (0 < t.pnl))).length
      ∧ btInit.winCount + btInit.lossCount = btInit.trades.length) :=
  ⟨by decide, c10_win_loss_counting btDefaults [] btInit (by decide)⟩

theorem getD_concat_length (l : List α) (x : α) (d : α) :
    (l ++ [x]).getD l.length d = x := by
  rw [List.getD, List.get?_append_right (le_refl _)]
  simp

theorem exitPosition_inPosition_false (s : BTState) (i : ℕ) (r : Row) (len : ℕ)
    (h1 : s.inPosition = true) : (exitPosition s i r len).inPosition = false := by
  unfold exitPosition
  rw [if_neg (by simp [h1])]

theorem exitPosition_trades_facts (s : BTState) (i : ℕ) (r : Row) (len : ℕ)
    (h1 : s.inPosition = true) :
    (exitPosition s i r len).trades.length = s.trades.length + 1
    ∧ ((exitPosition s i r len).trades.getD s.trades.length default).exitBar = i := by
  unfold exitPosition
  rw [if_neg (by simp [h1])]
  refine ⟨by simp, ?_⟩
  rw [getD_concat_length]

theorem enterPosition_fields (p : BTParams) (s : BTState) (r : Row) (d : Dir) :
    (enterPosition p s r d).inPosition = true
    ∧ (enterPosition p s r d).entryPrice = r.close
    ∧ (enterPosition p s r d).trades = s.trades := by
  cases d <;> exact ⟨rfl, rfl, rfl⟩

/-- C2, amended: within each bar the exit check is evaluated before the
entry check, but after an exit at bar `i` the entry check runs again on
that same bar `i` with the now-flat state: if the entry conditions hold
at bar `i`, a new position is opened on the very bar that closed the
previous one (entry price = that bar's close, and the closing trade is
already recorded with exit bar `i`). -/
theorem c2_amended (p : BTParams) (len : ℕ) (s : BTState) (i : ℕ) (r : Row)
    (h1 : s.inPosition = true) (h2 : checkExitConditions s r) :
    barStep p len s i r
      = (match checkEntryConditions p (exitPosition s i r len).inPosition i r with
         | some d => enterPosition p (exitPosition s i r len) r d
         | none => exitPosition s i r len)
    ∧ (∀ d, checkEntryConditions p false i r = some d →
        (barStep p len s i r).inPosition = true
        ∧ (barStep p len s i r).entryPrice = r.close
        ∧ (barStep p len s i r).trades.length = s.trades.length + 1
        ∧ ((barStep p len s i r).trades.getD s.trades.length default).exitBar = i) := by
  have hxf : (exitPosition s i r len).inPosition = false :=
    exitPosition_inPosition_false s i r len h1
  have hbar : barStep p len s i r
      = (match checkEntryConditions p (exitPosition s i r len).inPosition i r with
         | some d => enterPosition p (exitPosition s i r len) r d
         | none => exitPosition s i r len) := by
    have hphase : exitPhase s i r len = exitPosition s i r len := by
      unfold exitPhase
      exact if_pos ⟨h1, h2⟩
    unfold barStep entryPhase
    rw [hphase, if_pos hxf]
  refine ⟨hbar, ?_⟩
  intro d hd
  have hbar' : barStep p len s i r = enterPosition p (exitPosition s i r len) r d := by
    rw [hbar, hxf, hd]
  obtain ⟨he1, he2, he3⟩ := enterPosition_fields p (exitPosition s i r len) r d
  obtain ⟨hx1, hx2⟩ := exitPosition_trades_facts s i r len h1
  rw [hbar']
  exact ⟨he1, he2, by rw [he3, hx1], by rw [he3]; exact hx2⟩

theorem c2_amended_witness :
    (btStateLong.inPosition = true ∧ checkExitConditions btStateLong exitRow)
    ∧ (barStep btDefaults 202 btStateLong 201 exitRow
        = (match checkEntryConditions btDefaults
              (exitPosition btStateLong 201 exitRow 202).inPosition 201 exitRow with
           | some d => enterPosition btDefaults (exitPosition btStateLong 201 exitRow 202) exitRow d
           | none => exitPosition btStateLong 201 exitRow 202)
    ∧ (∀ d, checkEntryConditions btDefaults false 201 exitRow = some d →
        (barStep btDefaults 202 btStateLong 201 exitRow).inPosition = true
        ∧ (barStep btDefaults 202 btStateLong 201 exitRow).entryPrice = exitRow.close
        ∧ (barStep btDefaults 202 btStateLong 201 exitRow).trades.length
            = btStateLong.trades.length + 1
        ∧ ((barStep btDefaults 202 btStateLong 201 exitRow).trades.getD
              btStateLong.trades.length default).exitBar = 201)) :=
  ⟨⟨by decide, by decide⟩,
   c2_amended btDefaults 202 btStateLong 201 exitRow (by decide) (by decide)⟩

set_option maxRecDepth 40000 in
/-- C2, counterexample: in the concrete 202-bar run `exampleRows`, a
long position (entry price 100) is open entering bar 201; during bar
201 it is closed (the only recorded trade has exit bar 201) and a new
position is opened on that same bar 201 (entry price 106 = the bar-201
close) — so a bar that closes a position can open a new one. -/
theorem c2_counterexample :
    (btStateAt btDefaults exampleRows 201).inPosition = true
    ∧ (btStateAt btDefaults exampleRows 201).entryPrice = 100
    ∧ (btStateAt btDefaults exampleRows 201).trades.length = 0
    ∧ (btStateAt btDefaults exampleRows 202).trades.length = 1
    ∧ ((btStateAt btDefaults exampleRows 202).trades.getD 0 default).exitBar = 201
    ∧ (btStateAt btDefaults exampleRows 202).inPosition = true
    ∧ (btStateAt btDefaults exampleRows 202).entryPrice = 106
    ∧ (exampleRows.getD 201 default).close = 106 := by
  decide

set_option maxRecDepth 40000 in
/-- C8: the trade record written by `_exit_position` stores the *exit*
bar index and the *exit* bar's timestamp in its `entry_bar` and
`entry_date` fields (`entry_bar` is computed as
`i - len(data) + len(data) = i`).  In the concrete run `exampleRows`
the position recorded by the first trade was opened at bar 200 (entry
price 100 = the bar-200 close, while bar 200 has timestamp 200), yet
the record's `entry_bar` and `entry_date` are 201, the exit bar and its
timestamp. -/
theorem c8_trade_entry_fields_hold_exit_bar :
    (btStateAt btDefaults exampleRows 201).inPosition = true
    ∧ (btStateAt btDefaults exampleRows 201).entryPrice = 100
    ∧ (exampleRows.getD 200 default).close = 100
    ∧ (exampleRows.getD 200 default).time = 200
    ∧ ((btFinal btDefaults exampleRows).trades.getD 0 default).entryPrice = 100
    ∧ ((btFinal btDefaults exampleRows).trades.getD 0 default).entryBar = 201
    ∧ ((btFinal btDefaults exampleRows).trades.getD 0 default).entryDate = 201
    ∧ ((btFinal btDefaults exampleRows).trades.getD 0 default).exitBar = 201
    ∧ ((btFinal btDefaults exampleRows).trades.getD 0 default).exitDate = 201 := by
  decide

/-- C9: for every bar at which `atr * atr_multiplier > 0`, both ATR-band
confirmation conditions hold (`close > close - atr*mult` and
`close < close + atr*mult`), so the ATR-band check never excludes an
entry candidate: the entry decision equals the decision computed from
the remaining filters alone. -/
theorem c9_atr_band_never_excludes (p : BTParams) (r : Row) (inPos : Bool) (i : ℕ)
    (h : r.atr * p.atrMultiplier > 0) :
    atrLongConf p r ∧ atrShortConf p r ∧
      checkEntryConditions p inPos i r = checkEntrySansAtr p inPos i r := by
  have hl : atrLongConf p r := by unfold atrLongConf; linarith
  have hs : atrShortConf p r := by unfold atrShortConf; linarith
  refine ⟨hl, hs, ?_⟩
  have h1 : longCondition p r ↔ longConditionSansAtr p r := by
    unfold longCondition longConditionSansAtr; tauto
  have h2 : shortCondition p r ↔ shortConditionSansAtr p r := by
    unfold shortCondition shortConditionSansAtr; tauto
  unfold checkEntryConditions checkEntrySansAtr
  simp only [h1, h2]

theorem c9_witness :
    entryRow.atr * btDefaults.atrMultiplier > 0
    ∧ (atrLongConf btDefaults entryRow ∧ atrShortConf btDefaults entryRow ∧
        checkEntryConditions btDefaults false 200 entryRow
          = checkEntrySansAtr btDefaults false 200 entryRow) :=
  ⟨by decide, c9_atr_band_never_excludes btDefaults entryRow false 200 (by decide)⟩

theorem posInv_btInit : posInv btInit := by
  unfold posInv; decide

theorem posInv_exitPosition (s : BTState) (i : ℕ) (r : Row) (len : ℕ)
    (h : posInv s) : posInv (exitPosition s i r len) := by
  unfold exitPosition
  split_ifs with h1
  · exact h
  all_goals simp [posInv]

theorem posInv_enterPosition (p : BTParams) (s : BTState) (r : Row) (d : Dir) :
    posInv (enterPosition p s r d) := by
  cases d <;> simp [enterPosition, posInv]

theorem posInv_exitPhase (s : BTState) (i : ℕ) (r : Row) (len : ℕ)
    (h : posInv s) : posInv (exitPhase s i r len) := by
  unfold exitPhase
  split_ifs with h1
  · exact posInv_exitPosition s i r len h
  · exact h

theorem posInv_entryPhase (p : BTParams) (s : BTState) (i : ℕ) (r : Row)
    (h : posInv s) : posInv (entryPhase p s i r) := by
  unfold entryPhase
  split_ifs with h1
  · rcases checkEntryConditions p s.inPosition i r with _ | d
    · exact h
    · exact posInv_enterPosition p s r d
  · exact h

theorem posInv_barStep (p : BTParams) (len : ℕ) (s : BTState) (i : ℕ) (r : Row)
    (h : posInv s) : posInv (barStep p len s i r) :=
  posInv_entryPhase p _ i r (posInv_exitPhase s i r len h)

theorem posInv_btStatesAux (p : BTParams) (len : ℕ) (rows : List Row) :
    ∀ (s : BTState) (i : ℕ), posInv s →
      ∀ t ∈ btStatesAux p len s i rows, posInv t := by
  induction rows with
  | nil =>
      intro s i h t ht
      simp only [btStatesAux, List.mem_singleton] at ht
      exact ht ▸ h
  | cons r rest ih =>
      intro s i h t ht
      simp only [btStatesAux, List.mem_cons] at ht
      rcases ht with rfl | ht
      · exact h
      · exact ih _ _ (posInv_barStep p len s i r h) t ht

theorem posInv_btLoop (p : BTParams) (len : ℕ) (rows : List Row) :
    ∀ (s : BTState) (i : ℕ), posInv s → posInv (btLoop p len s i rows) := by
  induction rows with
  | nil => intro s i h; exact h
  | cons r rest ih => intro s i h; exact ih _ _ (posInv_barStep p len s i r h)

theorem posInv_btFinal (p : BTParams) (rows : List Row) : posInv (btFinal p rows) := by
  unfold btFinal forceClose
  have h := posInv_btLoop p rows.length rows btInit 0 posInv_btInit
  split_ifs with h1
  · rcases rows.getLast? with _ | r
    · exact h
    · exact posInv_exitPosition _ _ _ _ h
  · exact h

/-- C5: at every point during a backtest run the `in_position` flag and
`position_size` agree — `in_position` is true iff `position_size` is
`+1` (long) or `-1` (short), false iff it is `0`; in particular at most
one position, of exactly one direction, is open at any time, and every
operation of the state machine preserves this. -/
theorem c5_flag_size_agree (p : BTParams) (rows : List Row) :
    ∀ s ∈ btAllStates p rows,
      (s.inPosition = true ↔ (s.positionSize = 1 ∨ s.positionSize = -1))
      ∧ (s.inPosition = false ↔ s.positionSize = 0) := by
  intro s hs
  unfold btAllStates at hs
  rcases List.mem_append.mp hs with h | h
  · exact posInv_btStatesAux p rows.length rows btInit 0 posInv_btInit s h
  · simp only [List.mem_singleton] at h
    exact h ▸ posInv_btFinal p rows

theorem c5_witness :
    btInit ∈ btAllStates btDefaults []
    ∧ ((btInit.inPosition = true ↔ (btInit.positionSize = 1 ∨ btInit.positionSize = -1))
        ∧ (btInit.inPosition = false ↔ btInit.positionSize = 0)) :=
  ⟨by decide, c5_flag_size_agree btDefaults [] btInit (by decide)⟩

/-- C6, amended: the TSA engine's metrics reduction returns
`profit_factor = gross_profit/gross_loss` when `gross_loss > 0` and
`float('inf')` (encoded `none`) — not the sentinel 999.99 — when
`gross_loss = 0` on a nonempty trade list; with zero trades every
summary statistic is `0` (and the `win_count`/`loss_count` keys are
absent).  The sentinel 999.99 appears only in the separate
`bta_integration` helper, which returns it whenever `gross_loss = 0` on
a nonempty list, `gross_profit/gross_loss` when `gross_loss ≠ 0`, and
`0` for no trades.  All definitions are total: no input raises. -/
theorem c6_amended :
    (∀ (w l : ℕ) (tp : ℚ),
       (calculateResults [] w l tp).totalTrades = 0
       ∧ (calculateResults [] w l tp).winRate = 0
       ∧ (calculateResults [] w l tp).totalReturn = 0
       ∧ (calculateResults [] w l tp).profitFactor = some 0
       ∧ (calculateResults [] w l tp).maxDrawdown = 0
       ∧ (calculateResults [] w l tp).sharpe = 0
       ∧ (calculateResults [] w l tp).avgTrade = 0
       ∧ (calculateResults [] w l tp).grossProfit = 0
       ∧ (calculateResults [] w l tp).grossLoss = 0
       ∧ (calculateResults [] w l tp).winCountOut = none
       ∧ (calculateResults [] w l tp).lossCountOut = none)
    ∧ (∀ (trades : List TradeRec) (w l : ℕ) (tp : ℚ), trades ≠ [] →
        grossLossOf trades > 0 →
        (calculateResults trades w l tp).profitFactor
          = some (grossProfitOf trades / grossLossOf trades))
    ∧ (∀ (trades : List TradeRec) (w l : ℕ) (tp : ℚ), trades ≠ [] →
        grossLossOf trades = 0 →
        (calculateResults trades w l tp).profitFactor = none)
    ∧ btaProfitFactor [] = 0
    ∧ (∀ pnls, pnls ≠ [] → btaGrossLoss pnls = 0 →
        btaProfitFactor pnls = 99999/100)
    ∧ (∀ pnls, pnls ≠ [] → btaGrossLoss pnls ≠ 0 →
        btaProfitFactor pnls = btaGrossProfit pnls / btaGrossLoss pnls) := by
  refine ⟨?_, ?_, ?_, rfl, ?_, ?_⟩
  · intro w l tp
    exact ⟨rfl, rfl, rfl, rfl, rfl, rfl, rfl, rfl, rfl, rfl, rfl⟩
  · intro trades w l tp hne hgl
    unfold calculateResults
    rw [if_neg hne]
    dsimp only
    rw [if_pos hgl]
  · intro trades w l tp hne hgl
    unfold calculateResults
    rw [if_neg hne]
    dsimp only
    rw [if_neg (by rw [hgl]; exact lt_irrefl 0)]
  · intro pnls hne hgl
    unfold btaProfitFactor
    rw [if_neg hne, if_pos hgl]
  · intro pnls hne hgl
    unfold btaProfitFactor
    rw [if_neg hne, if_neg hgl]

theorem c6_amended_witness :
    (([tradeWin] : List TradeRec) ≠ [] ∧ grossLossOf [tradeWin] = 0)
    ∧ (calculateResults [tradeWin] 1 0 1).profitFactor = none
    ∧ (([some 1, none, some (-2)] : List (Option ℚ)) ≠ []
        ∧ btaGrossLoss [some 1, none, some (-2)] ≠ 0)
    ∧ btaProfitFactor [some 1, none, some (-2)]
        = btaGrossProfit [some 1, none, some (-2)] / btaGrossLoss [some 1, none, some (-2)] :=
  ⟨⟨by decide, by decide⟩,
   c6_amended.2.2.1 [tradeWin] 1 0 1 (by decide) (by decide),
   ⟨by decide, by decide⟩,
   c6_amended.2.2.2.2.2 [some 1, none, some (-2)] (by decide) (by decide)⟩

/-- C6, counterexample: a single trade with P&L `+1` has
`gross_profit = 1 > 0` and `gross_loss = 0`, and `_calculate_results`
reports `profit_factor = float('inf')` (encoded `none`), which differs
from the claimed sentinel `999.99` (and from every rational value). -/
theorem c6_counterexample :
    grossProfitOf [tradeWin] = 1
    ∧ grossLossOf [tradeWin] = 0
    ∧ (calculateResults [tradeWin] 1 0 1).profitFactor = none
    ∧ (∀ q : ℚ, (none : Option ℚ) ≠ some q) :=
  ⟨by decide, by decide, by decide, fun q h => Option.noConfusion h⟩

end Theorems

end SableAI
